import Mathlib

/-
Verification development for the InVEST urban-health data-agent repository.
The definitions below are a shallow embedding of the acquisition pipeline in
src/agents/data_agent.py and of the helpers in src/utils/spatial_processing.py
and src/utils/validation.py.  Machine floats of the Python source are modelled
by exact rationals; Python int() is modelled by truncation toward zero.
-/

namespace InvestAgent

/-- Geographic bounding box in degrees, the data model's
{min_lon, min_lat, max_lon, max_lat}. -/
structure BBox where
  min_lon : ℚ
  min_lat : ℚ
  max_lon : ℚ
  max_lat : ℚ
deriving DecidableEq, Repr

/-- Python int() applied to a rational: truncation toward zero (floor for
nonnegative values, ceiling for negative ones). -/
def pyInt (q : ℚ) : ℤ := if 0 ≤ q then ⌊q⌋ else ⌈q⌉

/-- The fixed meters-per-degree constant used by the source (111,320 m/deg). -/
def meters_per_degree : ℚ := 111320

/-- width = int((max_lon - min_lon) * 111320 / scale), data_agent.py lines 115
and 184 (flat degree-to-pixel approximation). -/
def full_width (b : BBox) (scale : ℚ) : ℤ :=
  pyInt ((b.max_lon - b.min_lon) * meters_per_degree / scale)

/-- height = int((max_lat - min_lat) * 111320 / scale), data_agent.py lines 116
and 185. -/
def full_height (b : BBox) (scale : ℚ) : ℤ :=
  pyInt ((b.max_lat - b.min_lat) * meters_per_degree / scale)

/-- SAMPLE_LIMIT = 250000, the direct-download ceiling of
_download_large_area_as_numpy (data_agent.py line 120). -/
def SAMPLE_LIMIT : ℤ := 250000

/-- The two acquisition paths of _download_large_area_as_numpy. -/
inductive Path where
  | direct
  | tiled
deriving DecidableEq, Repr

/-- Decision at data_agent.py line 122: tiled when total_pixels > SAMPLE_LIMIT,
otherwise the direct single sampleRectangle request. -/
def download_plan (b : BBox) (scale : ℚ) : Path :=
  if full_width b scale * full_height b scale > SAMPLE_LIMIT then .tiled else .direct

/-- tile_dim = 450 pixels per tile side (data_agent.py line 192). -/
def tile_dim : ℕ := 450

/-- ceil(npix / tile_dim), the n_tiles_x / n_tiles_y computation
(data_agent.py lines 193-194). -/
def n_tiles (npix : ℕ) : ℕ := (npix + tile_dim - 1) / tile_dim

/-- x_start = j * tile_dim (data_agent.py line 212). -/
def x_start (j : ℕ) : ℕ := j * tile_dim

/-- x_end = min((j + 1) * tile_dim, full_width) (data_agent.py line 213). -/
def x_end (fw j : ℕ) : ℕ := min ((j + 1) * tile_dim) fw

/-- tile_width = x_end - x_start (data_agent.py line 217). -/
def tile_width (fw j : ℕ) : ℕ := x_end fw j - x_start j

/-- y_start = i * tile_dim (data_agent.py line 210). -/
def y_start (i : ℕ) : ℕ := i * tile_dim

/-- y_end = min((i + 1) * tile_dim, full_height) (data_agent.py line 211). -/
def y_end (fh i : ℕ) : ℕ := min ((i + 1) * tile_dim) fh

/-- tile_height = y_end - y_start (data_agent.py line 216). -/
def tile_height (fh i : ℕ) : ℕ := y_end fh i - y_start i

/-- One tile of the plan: pixel offsets/extents plus geographic bounds. -/
structure TileDescriptor where
  row : ℕ
  col : ℕ
  y0 : ℕ
  x0 : ℕ
  h : ℕ
  w : ℕ
  geo : BBox
deriving DecidableEq, Repr

/-- Tile geographic bounds, the linear fractional split of the full bounds by
pixel offset (data_agent.py lines 220-223). -/
def tile_geo (b : BBox) (fw fh : ℕ) (i j : ℕ) : BBox where
  min_lon := b.min_lon + (b.max_lon - b.min_lon) * ((x_start j : ℚ) / (fw : ℚ))
  max_lon := b.min_lon + (b.max_lon - b.min_lon) * ((x_end fw j : ℚ) / (fw : ℚ))
  min_lat := b.min_lat + (b.max_lat - b.min_lat) * ((y_start i : ℚ) / (fh : ℚ))
  max_lat := b.min_lat + (b.max_lat - b.min_lat) * ((y_end fh i : ℚ) / (fh : ℚ))

/-- The descriptor the tiled loop body builds for tile (i, j). -/
def tile_desc (b : BBox) (fw fh : ℕ) (i j : ℕ) : TileDescriptor where
  row := i
  col := j
  y0 := y_start i
  x0 := x_start j
  h := tile_height fh i
  w := tile_width fw j
  geo := tile_geo b fw fh i j

/-- Row-major tile plan of _download_tiled: i over n_tiles_y outer, j over
n_tiles_x inner (data_agent.py lines 207-208). -/
def tile_plan (b : BBox) (fw fh : ℕ) : List TileDescriptor :=
  (List.range (n_tiles fh)).flatMap fun i =>
    (List.range (n_tiles fw)).map fun j => tile_desc b fw fh i j

/-- Pixel (r, c) lies in tile t's pixel rectangle. -/
def tile_contains (t : TileDescriptor) (r c : ℕ) : Prop :=
  t.y0 ≤ r ∧ r < t.y0 + t.h ∧ t.x0 ≤ c ∧ c < t.x0 + t.w

/-- The cut sequence of the fractional split along one axis: position of the
boundary of pixel column/row x (capped at the full extent). -/
def frac_cut (lo hi : ℚ) (total : ℕ) (x : ℕ) : ℚ :=
  lo + (hi - lo) * (((min (x * tile_dim) total : ℕ) : ℚ) / (total : ℚ))

/-- The computed full pixel width as a natural number. -/
def fwN (b : BBox) (scale : ℚ) : ℕ := (full_width b scale).toNat

/-- The computed full pixel height as a natural number. -/
def fhN (b : BBox) (scale : ℚ) : ℕ := (full_height b scale).toNat

/-- Affine geotransform (a b c; d e f): col,row maps to
(a*col + b*row + c, d*col + e*row + f). -/
structure Affine where
  a : ℚ
  b : ℚ
  c : ℚ
  d : ℚ
  e : ℚ
  f : ℚ
deriving DecidableEq, Repr

/-- rasterio.transform.from_bounds(west, south, east, north, width, height):
origin at the top-left corner (west, north), pixel sizes
(east-west)/width and (south-north)/height. -/
def from_bounds (west south east north : ℚ) (width height : ℕ) : Affine where
  a := (east - west) / (width : ℚ)
  b := 0
  c := west
  d := 0
  e := (south - north) / (height : ℚ)
  f := north

/-- Apply a geotransform to fractional pixel coordinates (col, row). -/
def Affine.apply (t : Affine) (col row : ℚ) : ℚ × ℚ :=
  (t.a * col + t.b * row + t.c, t.d * col + t.e * row + t.f)

/-- The in-memory stitched raster: 2-D data plus georeferencing metadata. -/
structure RasterBuffer where
  height : ℕ
  width : ℕ
  data : ℕ → ℕ → ℚ
  transform : Affine
  nodata : ℚ
  crs : String
  dtype : String

/-- np.zeros((full_height, full_width), dtype=np.float32), data_agent.py
line 203: the zero-initialized output buffer. -/
def init_buffer (fh fw : ℕ) : ℕ → ℕ → ℚ := fun _ _ => 0

/-- full_data[y_start:y_start+tile_height, x_start:x_start+tile_width] =
tile_data (data_agent.py line 242). -/
def place_tile (buf : ℕ → ℕ → ℚ) (t : TileDescriptor) (tile : ℕ → ℕ → ℚ) :
    ℕ → ℕ → ℚ :=
  fun r c =>
    if t.y0 ≤ r ∧ r < t.y0 + t.h ∧ t.x0 ≤ c ∧ c < t.x0 + t.w then
      tile (r - t.y0) (c - t.x0)
    else buf r c

/-- Place a list of completed tiles into the zero-initialized buffer. -/
def stitch_all (tiles : List (TileDescriptor × (ℕ → ℕ → ℚ))) (fh fw : ℕ) :
    ℕ → ℕ → ℚ :=
  tiles.foldl (fun buf p => place_tile buf p.1 p.2) (init_buffer fh fw)

/-- Finalization of the tiled download (data_agent.py lines 261-279): one
transform computed from_bounds over the full bounding box, nodata=0,
dtype float32, CRS EPSG:4326, at the full plan dimensions. -/
def stitch_finalize (b : BBox) (fw fh : ℕ) (data : ℕ → ℕ → ℚ) : RasterBuffer where
  height := fh
  width := fw
  data := data
  transform := from_bounds b.min_lon b.min_lat b.max_lon b.max_lat fw fh
  nodata := 0
  crs := "EPSG:4326"
  dtype := "float32"

/-- time.sleep(2) between tile fetch attempts (data_agent.py line 254). -/
def retry_delay_seconds : ℕ := 2

/-- Trace of one tile's retry loop: attempts executed, 2-second sleeps taken,
and whether the tile finally succeeded. -/
structure FetchTrace where
  attempts : ℕ
  sleeps : ℕ
  success : Bool
deriving DecidableEq, Repr

/-- The retry loop of data_agent.py lines 231-257: for attempt in range(3),
break on success, sleep 2 seconds after a failed non-final attempt, raise
after the final failed attempt (no sleep). ok k tells whether attempt k
succeeds. -/
def run_attempts (ok : ℕ → Bool) : List ℕ → FetchTrace
  | [] => ⟨0, 0, false⟩
  | a :: rest =>
    if ok a then ⟨1, 0, true⟩
    else
      match rest with
      | [] => ⟨1, 0, false⟩
      | r :: more =>
        let t := run_attempts ok (r :: more)
        ⟨t.attempts + 1, t.sleeps + 1, t.success⟩

/-- One tile's fetch: the loop runs over attempts 0, 1, 2. -/
def tile_fetch (ok : ℕ → Bool) : FetchTrace := run_attempts ok [0, 1, 2]

/-- Sequential loop over the plan: the first tile that exhausts its retries
raises, carrying that tile's (row, col); otherwise all tiles complete. -/
def fetch_all_tiles (ok : ℕ → ℕ → ℕ → Bool) :
    List TileDescriptor → Except (ℕ × ℕ) Unit
  | [] => .ok ()
  | t :: rest =>
    if (tile_fetch (ok t.row t.col)).success then fetch_all_tiles ok rest
    else .error (t.row, t.col)

/-- Outcome of _download_tiled: the finalized raster only when every tile of
the plan resolved; a raised tile failure aborts with no raster written. -/
def tiled_download (ok : ℕ → ℕ → ℕ → Bool) (b : BBox) (scale : ℚ)
    (data : ℕ → ℕ → ℚ) : Option RasterBuffer :=
  match fetch_all_tiles ok (tile_plan b (fwN b scale) (fhN b scale)) with
  | .ok _ => some (stitch_finalize b (fwN b scale) (fhN b scale) data)
  | .error _ => none

/-- Python truthiness fallback x or d on an optional float: None and 0.0 are
falsy, every other value is kept. -/
def py_or (nd : Option ℚ) (dflt : ℚ) : ℚ :=
  match nd with
  | none => dflt
  | some v => if v = 0 then dflt else v

/-- Output metadata of SpatialProcessor.reproject_raster that the claims are
about: target CRS and the nodata choice. -/
structure ReprojectMeta where
  crs : String
  nodata : ℚ
deriving DecidableEq, Repr

/-- kwargs.update of reproject_raster (spatial_processing.py lines 96-102):
crs = target, nodata = src.nodata or 255. -/
def reproject_meta (target_crs : String) (src_nodata : Option ℚ) : ReprojectMeta where
  crs := target_crs
  nodata := py_or src_nodata 255

/-- Properties of a successfully opened raster, as read by validate_raster. -/
structure SrcRaster where
  crs : String
  shape : ℕ × ℕ
  nodata : Option ℚ
  dtype : String
  band_count : ℕ
  data : List ℚ
deriving DecidableEq, Repr

/-- has_nodata = np.any(data == src.nodata) if src.nodata else False
(validation.py line 30): None and a 0 sentinel are both falsy. -/
def has_nodata_flag (nodata : Option ℚ) (data : List ℚ) : Bool :=
  match nodata with
  | none => false
  | some v => if v = 0 then false else data.any fun x => decide (x = v)

/-- Fold for np.nanmin over the pixel list (rationals carry no NaN). -/
def nanmin (data : List ℚ) : Option ℚ :=
  data.foldl
    (fun acc x =>
      match acc with
      | none => some x
      | some m => some (min m x))
    none

/-- Fold for np.nanmax over the pixel list. -/
def nanmax (data : List ℚ) : Option ℚ :=
  data.foldl
    (fun acc x =>
      match acc with
      | none => some x
      | some m => some (max m x))
    none

/-- The record validate_raster returns; fields absent in a branch of the
Python dict are modelled as none. -/
structure ValidationResult where
  file_exists : Bool
  crs : Option String
  crs_match : Option Bool
  shape : Option (ℕ × ℕ)
  nodata : Option (Option ℚ)
  dtype : Option String
  band_count : Option ℕ
  min_value : Option ℚ
  max_value : Option ℚ
  has_nodata : Option Bool
  error : Option String
deriving DecidableEq, Repr

/-- DataValidator.validate_raster (validation.py lines 9-39).  The broad
except is modelled by the Except argument: opening either yields the raster
or the exception's message string.  The error branch returns
{file_exists: False, error: str(e)}, never raising. -/
def validate_raster (opened : Except String SrcRaster) (expected_crs : Option String) :
    ValidationResult :=
  match opened with
  | .error e =>
    { file_exists := false, crs := none, crs_match := none, shape := none,
      nodata := none, dtype := none, band_count := none, min_value := none,
      max_value := none, has_nodata := none, error := some e }
  | .ok src =>
    { file_exists := true
      crs := some src.crs
      crs_match := some (match expected_crs with
        | none => true
        | some ec => if ec = "" then true else decide (src.crs = ec))
      shape := some src.shape
      nodata := some src.nodata
      dtype := some src.dtype
      band_count := some src.band_count
      min_value := nanmin src.data
      max_value := nanmax src.data
      has_nodata := some (has_nodata_flag src.nodata src.data)
      error := none }

/-- The dataset identifiers process_city_data dispatches on
(data_agent.py lines 640-658). -/
def recognized_datasets : List String :=
  ["land_cover", "tree_cover", "ndvi", "population", "basemap"]

/-- The manifest fields the orchestration claims are about. -/
structure Manifest where
  outputs : List (String × String)
  status : String

/-- The outputs accumulation of process_city_data: per requested dataset,
an unknown type is skipped, a known type contributes exactly when its
pipeline returned a path to an existing file (the result oracle). -/
def process_outputs (result : String → Option String) (data_types : List String) :
    List (String × String) :=
  data_types.filterMap fun d =>
    if d ∈ recognized_datasets then (result d).map (fun p => (d, p)) else none

/-- process_city_data (data_agent.py lines 614-716): every requested dataset
is processed independently of the others' outcomes; the manifest status is
"completed" if outputs is non-empty, else "failed" (line 700). -/
def process_city_data (result : String → Option String) (data_types : List String) :
    Manifest where
  outputs := process_outputs result data_types
  status := if (process_outputs result data_types).isEmpty then "failed" else "completed"

/-- A Python runtime value as make_json_safe sees it: the JSON basics, lists,
dicts, numpy scalars (vnp carries the Python value its .item() returns), and
every other object (vother carries its str()). -/
inductive PyVal where
  | vnone : PyVal
  | vbool : Bool → PyVal
  | vint : ℤ → PyVal
  | vfloat : ℚ → PyVal
  | vstr : String → PyVal
  | vlist : List PyVal → PyVal
  | vdict : List (PyVal × PyVal) → PyVal
  | vnp : PyVal → PyVal
  | vother : String → PyVal

mutual

/-- make_json_safe (data_agent.py lines 600-611): recurse into dict values
(keys untouched) and list items, unwrap numpy scalars via .item(), keep the
JSON basics, and stringify everything else. -/
def make_json_safe : PyVal → PyVal
  | .vdict kvs => .vdict (mjs_entries kvs)
  | .vlist xs => .vlist (mjs_list xs)
  | .vnp item => item
  | .vbool b => .vbool b
  | .vint n => .vint n
  | .vfloat q => .vfloat q
  | .vstr s => .vstr s
  | .vnone => .vnone
  | .vother r => .vstr r

/-- List comprehension branch of make_json_safe. -/
def mjs_list : List PyVal → List PyVal
  | [] => []
  | x :: xs => make_json_safe x :: mjs_list xs

/-- Dict comprehension branch of make_json_safe: values recursed, keys kept. -/
def mjs_entries : List (PyVal × PyVal) → List (PyVal × PyVal)
  | [] => []
  | (k, v) :: rest => (k, make_json_safe v) :: mjs_entries rest

end

mutual

/-- The value is built only from dicts, lists, bools, ints, floats, strings
and None (dict keys included). -/
def json_safe : PyVal → Bool
  | .vnone => true
  | .vbool _ => true
  | .vint _ => true
  | .vfloat _ => true
  | .vstr _ => true
  | .vlist xs => json_safe_list xs
  | .vdict kvs => json_safe_entries kvs
  | .vnp _ => false
  | .vother _ => false

/-- All list items are JSON safe. -/
def json_safe_list : List PyVal → Bool
  | [] => true
  | x :: xs => json_safe x && json_safe_list xs

/-- All dict keys and values are JSON safe. -/
def json_safe_entries : List (PyVal × PyVal) → Bool
  | [] => true
  | (k, v) :: rest => json_safe k && json_safe v && json_safe_entries rest

end

/-- A scalar of one of the basic JSON kinds. -/
def basic_val : PyVal → Bool
  | .vnone => true
  | .vbool _ => true
  | .vint _ => true
  | .vfloat _ => true
  | .vstr _ => true
  | _ => false

mutual

/-- Well-behaved input: every numpy scalar unwraps to a basic value and every
dict key is basic (as in the manifests the agent serializes). -/
def good_input : PyVal → Bool
  | .vnone => true
  | .vbool _ => true
  | .vint _ => true
  | .vfloat _ => true
  | .vstr _ => true
  | .vnp item => basic_val item
  | .vother _ => true
  | .vlist xs => good_list xs
  | .vdict kvs => good_entries kvs

/-- All list items are well-behaved. -/
def good_list : List PyVal → Bool
  | [] => true
  | x :: xs => good_input x && good_list xs

/-- All dict keys are basic and all values well-behaved. -/
def good_entries : List (PyVal × PyVal) → Bool
  | [] => true
  | (k, v) :: rest => basic_val k && good_input v && good_entries rest

end

/-! ### Helper lemmas -/

theorem tile_height_eq (fh i : ℕ) : tile_height fh i = tile_width fh i := rfl

theorem sum_tile_width (fw : ℕ) (n : ℕ) :
    ∑ j ∈ Finset.range n, tile_width fw j = min (n * tile_dim) fw := by
  induction n with
  | zero => simp
  | succ n ih =>
    rw [Finset.sum_range_succ, ih]
    simp only [tile_width, x_start, x_end, tile_dim]
    omega

theorem mem_tile_plan {b : BBox} {fw fh : ℕ} {t : TileDescriptor} :
    t ∈ tile_plan b fw fh ↔
      ∃ i < n_tiles fh, ∃ j < n_tiles fw, t = tile_desc b fw fh i j := by
  simp only [tile_plan, List.mem_flatMap, List.mem_map, List.mem_range]
  constructor
  · rintro ⟨i, hi, j, hj, rfl⟩
    exact ⟨i, hi, j, hj, rfl⟩
  · rintro ⟨i, hi, j, hj, rfl⟩
    exact ⟨i, hi, j, hj, rfl⟩

theorem n_tiles_eq_ceil (n : ℕ) : (n_tiles n : ℤ) = ⌈(n : ℚ) / (tile_dim : ℚ)⌉ := by
  rw [eq_comm, Int.ceil_eq_iff]
  have h1 : n ≤ n_tiles n * tile_dim := by simp only [n_tiles, tile_dim]; omega
  have h2 : n_tiles n * tile_dim < n + tile_dim := by simp only [n_tiles, tile_dim]; omega
  have hq1 : (n : ℚ) ≤ (n_tiles n : ℚ) * (tile_dim : ℚ) := by exact_mod_cast h1
  have hq2 : (n_tiles n : ℚ) * (tile_dim : ℚ) < (n : ℚ) + (tile_dim : ℚ) := by
    exact_mod_cast h2
  have h450 : (0:ℚ) < (tile_dim : ℚ) := by norm_num [tile_dim]
  constructor
  · rw [lt_div_iff₀ h450]
    push_cast
    nlinarith
  · rw [div_le_iff₀ h450]
    push_cast
    nlinarith

theorem frac_cut_zero (lo hi : ℚ) (total : ℕ) : frac_cut lo hi total 0 = lo := by
  simp [frac_cut]

theorem frac_cut_last (lo hi : ℚ) (total : ℕ) (ht : 1 ≤ total) :
    frac_cut lo hi total (n_tiles total) = hi := by
  have h1 : min (n_tiles total * tile_dim) total = total := by
    simp only [n_tiles, tile_dim]; omega
  have ht0 : ((total : ℕ) : ℚ) ≠ 0 := Nat.cast_ne_zero.mpr (by omega)
  rw [frac_cut, h1, div_self ht0]
  ring

theorem frac_cut_mono (lo hi : ℚ) (total : ℕ) (hle : lo ≤ hi) {j j' : ℕ}
    (hj : j ≤ j') : frac_cut lo hi total j ≤ frac_cut lo hi total j' := by
  unfold frac_cut
  have hmin : min (j * tile_dim) total ≤ min (j' * tile_dim) total := by
    have := Nat.mul_le_mul_right tile_dim hj
    omega
  have hq : ((min (j * tile_dim) total : ℕ) : ℚ) ≤ ((min (j' * tile_dim) total : ℕ) : ℚ) := by
    exact_mod_cast hmin
  rcases Nat.eq_zero_or_pos total with h0 | hpos
  · subst h0
    simp
  · have hT : (0:ℚ) < (total : ℚ) := by exact_mod_cast hpos
    exact add_le_add_left
      (mul_le_mul_of_nonneg_left ((div_le_div_iff_of_pos_right hT).mpr hq) (sub_nonneg.mpr hle)) lo

theorem frac_cut_strict (lo hi : ℚ) (total : ℕ) (hlt : lo < hi) (h1t : 1 ≤ total)
    {j j' : ℕ} (hj : j < j') (hj' : j' ≤ n_tiles total) :
    frac_cut lo hi total j < frac_cut lo hi total j' := by
  unfold frac_cut
  have hmin : min (j * tile_dim) total < min (j' * tile_dim) total := by
    simp only [n_tiles, tile_dim] at *
    omega
  have hq : ((min (j * tile_dim) total : ℕ) : ℚ) < ((min (j' * tile_dim) total : ℕ) : ℚ) := by
    exact_mod_cast hmin
  have hT : (0:ℚ) < (total : ℚ) := by exact_mod_cast h1t
  exact add_lt_add_left
    (mul_lt_mul_of_pos_left ((div_lt_div_iff_of_pos_right hT).mpr hq) (sub_pos.mpr hlt)) lo

theorem tile_desc_geo (b : BBox) (fw fh : ℕ) {i j : ℕ}
    (hi : i < n_tiles fh) (hj : j < n_tiles fw) :
    (tile_desc b fw fh i j).geo.min_lon = frac_cut b.min_lon b.max_lon fw j ∧
    (tile_desc b fw fh i j).geo.max_lon = frac_cut b.min_lon b.max_lon fw (j + 1) ∧
    (tile_desc b fw fh i j).geo.min_lat = frac_cut b.min_lat b.max_lat fh i ∧
    (tile_desc b fw fh i j).geo.max_lat = frac_cut b.min_lat b.max_lat fh (i + 1) := by
  have hx : min (j * tile_dim) fw = j * tile_dim := by
    simp only [n_tiles, tile_dim] at *
    omega
  have hy : min (i * tile_dim) fh = i * tile_dim := by
    simp only [n_tiles, tile_dim] at *
    omega
  refine ⟨?_, ?_, ?_, ?_⟩ <;>
    simp [tile_desc, tile_geo, frac_cut, x_start, x_end, y_start, y_end, hx, hy,
      mul_div_assoc]

theorem cover_aux (g : ℕ → ℚ) :
    ∀ n : ℕ, 1 ≤ n → ∀ p : ℚ, g 0 ≤ p → p ≤ g n → ∃ j < n, g j ≤ p ∧ p ≤ g (j + 1)
  | 0, h, _, _, _ => absurd h (by omega)
  | 1, _, p, h0, h1 => ⟨0, by omega, h0, h1⟩
  | (n + 2), _, p, h0, h1 => by
    rcases le_or_lt p (g (n + 1)) with hle | hlt
    · obtain ⟨j, hj, hj1, hj2⟩ := cover_aux g (n + 1) (by omega) p h0 hle
      exact ⟨j, by omega, hj1, hj2⟩
    · exact ⟨n + 1, by omega, le_of_lt hlt, h1⟩

theorem pyInt_eq_of (q : ℚ) (n : ℤ) (h0 : 0 ≤ q) (h1 : (n : ℚ) ≤ q)
    (h2 : q < (n : ℚ) + 1) : pyInt q = n := by
  rw [pyInt, if_pos h0, Int.floor_eq_iff]
  exact ⟨h1, h2⟩

/-! ### Claim theorems -/

/-- C1: for every valid non-degenerate bounding box and scale (positive
computed pixel dimensions), the tiled-download plan with fixed tile side 450
consists of ceil(full_width/450) * ceil(full_height/450) tiles whose pixel
rectangles disjointly and exactly cover the full output pixel grid (widths
along each row sum to full_width, heights along each column sum to
full_height, only the last row/column may be smaller than 450), and whose
geographic bounds, the linear fractional split of the full bounds by pixel
offset, union to the input bounding box with no gaps or overlaps (the cut
sequences start at the box minimum, end at its maximum and are strictly
increasing; tile geo rectangles cover every point of the box and have
pairwise disjoint interiors). -/
theorem tile_plan_partition_exact (b : BBox) (scale : ℚ)
    (hW : 1 ≤ full_width b scale) (hH : 1 ≤ full_height b scale)
    (hlon : b.min_lon < b.max_lon) (hlat : b.min_lat < b.max_lat) :
    (tile_plan b (fwN b scale) (fhN b scale)).length
        = n_tiles (fwN b scale) * n_tiles (fhN b scale) ∧
    ((n_tiles (fwN b scale) : ℤ) = ⌈(fwN b scale : ℚ) / (tile_dim : ℚ)⌉ ∧
      (n_tiles (fhN b scale) : ℤ) = ⌈(fhN b scale : ℚ) / (tile_dim : ℚ)⌉) ∧
    (∑ j ∈ Finset.range (n_tiles (fwN b scale)), tile_width (fwN b scale) j
        = fwN b scale ∧
      ∑ i ∈ Finset.range (n_tiles (fhN b scale)), tile_height (fhN b scale) i
        = fhN b scale) ∧
    (∀ t ∈ tile_plan b (fwN b scale) (fhN b scale),
      t.w ≤ tile_dim ∧ t.h ≤ tile_dim ∧
      (t.col + 1 < n_tiles (fwN b scale) → t.w = tile_dim) ∧
      (t.row + 1 < n_tiles (fhN b scale) → t.h = tile_dim)) ∧
    (∀ r c : ℕ, r < fhN b scale → c < fwN b scale →
      ∃ t ∈ tile_plan b (fwN b scale) (fhN b scale), tile_contains t r c) ∧
    (∀ t ∈ tile_plan b (fwN b scale) (fhN b scale),
      ∀ u ∈ tile_plan b (fwN b scale) (fhN b scale), t ≠ u →
      ∀ r c : ℕ, tile_contains t r c → ¬ tile_contains u r c) ∧
    (∀ t ∈ tile_plan b (fwN b scale) (fhN b scale),
      t.geo.min_lon = frac_cut b.min_lon b.max_lon (fwN b scale) t.col ∧
      t.geo.max_lon = frac_cut b.min_lon b.max_lon (fwN b scale) (t.col + 1) ∧
      t.geo.min_lat = frac_cut b.min_lat b.max_lat (fhN b scale) t.row ∧
      t.geo.max_lat = frac_cut b.min_lat b.max_lat (fhN b scale) (t.row + 1)) ∧
    (frac_cut b.min_lon b.max_lon (fwN b scale) 0 = b.min_lon ∧
      frac_cut b.min_lon b.max_lon (fwN b scale) (n_tiles (fwN b scale)) = b.max_lon ∧
      frac_cut b.min_lat b.max_lat (fhN b scale) 0 = b.min_lat ∧
      frac_cut b.min_lat b.max_lat (fhN b scale) (n_tiles (fhN b scale)) = b.max_lat ∧
      (∀ j j' : ℕ, j < j' → j' ≤ n_tiles (fwN b scale) →
        frac_cut b.min_lon b.max_lon (fwN b scale) j
          < frac_cut b.min_lon b.max_lon (fwN b scale) j') ∧
      (∀ i i' : ℕ, i < i' → i' ≤ n_tiles (fhN b scale) →
        frac_cut b.min_lat b.max_lat (fhN b scale) i
          < frac_cut b.min_lat b.max_lat (fhN b scale) i')) ∧
    (∀ p q : ℚ, b.min_lon ≤ p → p ≤ b.max_lon → b.min_lat ≤ q → q ≤ b.max_lat →
      ∃ t ∈ tile_plan b (fwN b scale) (fhN b scale),
        t.geo.min_lon ≤ p ∧ p ≤ t.geo.max_lon ∧
        t.geo.min_lat ≤ q ∧ q ≤ t.geo.max_lat) ∧
    (∀ t ∈ tile_plan b (fwN b scale) (fhN b scale),
      ∀ u ∈ tile_plan b (fwN b scale) (fhN b scale), t ≠ u →
      t.geo.max_lon ≤ u.geo.min_lon ∨ u.geo.max_lon ≤ t.geo.min_lon ∨
      t.geo.max_lat ≤ u.geo.min_lat ∨ u.geo.max_lat ≤ t.geo.min_lat) := by
  set fw := fwN b scale with hfw_def
  set fh := fhN b scale with hfh_def
  have hfw1 : 1 ≤ fw := by rw [hfw_def]; unfold fwN; omega
  have hfh1 : 1 ≤ fh := by rw [hfh_def]; unfold fhN; omega
  refine ⟨?_, ⟨n_tiles_eq_ceil _, n_tiles_eq_ceil _⟩, ⟨?_, ?_⟩, ?_, ?_, ?_, ?_, ?_, ?_, ?_⟩
  · unfold tile_plan
    rw [List.length_flatMap]
    have key : ∀ L : List ℕ,
        (L.map (List.length ∘ fun i => (List.range (n_tiles fw)).map
          fun j => tile_desc b fw fh i j)).sum = L.length * n_tiles fw := by
      intro L
      induction L with
      | nil => simp
      | cons x xs ih => simp [ih, Nat.succ_mul, Nat.add_comm]
    rw [key, List.length_range, Nat.mul_comm]
  · rw [sum_tile_width]
    simp only [n_tiles, tile_dim] at *
    omega
  · simp only [tile_height_eq]
    rw [sum_tile_width]
    simp only [n_tiles, tile_dim] at *
    omega
  · intro t ht
    obtain ⟨i, hi, j, hj, rfl⟩ := mem_tile_plan.mp ht
    refine ⟨?_, ?_, ?_, ?_⟩ <;>
      · simp only [tile_desc, tile_width, tile_height, x_start, x_end, y_start, y_end,
          n_tiles, tile_dim] at *
        omega
  · intro r c hr hc
    refine ⟨tile_desc b fw fh (r / tile_dim) (c / tile_dim),
      mem_tile_plan.mpr ⟨r / tile_dim, ?_, c / tile_dim, ?_, rfl⟩, ?_⟩
    · simp only [n_tiles, tile_dim] at *
      omega
    · simp only [n_tiles, tile_dim] at *
      omega
    · simp only [tile_contains, tile_desc, tile_width, tile_height, x_start, x_end,
        y_start, y_end, tile_dim] at *
      omega
  · intro t ht u hu hne r c hcont hcont'
    obtain ⟨i, hi, j, hj, rfl⟩ := mem_tile_plan.mp ht
    obtain ⟨i', hi', j', hj', rfl⟩ := mem_tile_plan.mp hu
    apply hne
    have hij : i = i' ∧ j = j' := by
      simp only [tile_contains, tile_desc, tile_width, tile_height, x_start, x_end,
        y_start, y_end, tile_dim] at hcont hcont'
      constructor <;> omega
    rw [hij.1, hij.2]
  · intro t ht
    obtain ⟨i, hi, j, hj, rfl⟩ := mem_tile_plan.mp ht
    simpa [tile_desc] using tile_desc_geo b fw fh hi hj
  · exact ⟨frac_cut_zero _ _ _, frac_cut_last _ _ _ hfw1, frac_cut_zero _ _ _,
      frac_cut_last _ _ _ hfh1,
      fun j j' hj hj' => frac_cut_strict _ _ _ hlon hfw1 hj hj',
      fun i i' hi hi' => frac_cut_strict _ _ _ hlat hfh1 hi hi'⟩
  · intro p q hp1 hp2 hq1 hq2
    have h1x : 1 ≤ n_tiles fw := by simp only [n_tiles, tile_dim]; omega
    have h1y : 1 ≤ n_tiles fh := by simp only [n_tiles, tile_dim]; omega
    obtain ⟨j, hj, hjl, hjr⟩ := cover_aux (frac_cut b.min_lon b.max_lon fw)
      (n_tiles fw) h1x p (by rwa [frac_cut_zero]) (by rwa [frac_cut_last _ _ _ hfw1])
    obtain ⟨i, hi, hil, hir⟩ := cover_aux (frac_cut b.min_lat b.max_lat fh)
      (n_tiles fh) h1y q (by rwa [frac_cut_zero]) (by rwa [frac_cut_last _ _ _ hfh1])
    refine ⟨tile_desc b fw fh i j, mem_tile_plan.mpr ⟨i, hi, j, hj, rfl⟩, ?_⟩
    obtain ⟨e1, e2, e3, e4⟩ := tile_desc_geo b fw fh hi hj
    rw [e1, e2, e3, e4]
    exact ⟨hjl, hjr, hil, hir⟩
  · intro t ht u hu hne
    obtain ⟨i, hi, j, hj, rfl⟩ := mem_tile_plan.mp ht
    obtain ⟨i', hi', j', hj', rfl⟩ := mem_tile_plan.mp hu
    obtain ⟨e1, e2, e3, e4⟩ := tile_desc_geo b fw fh hi hj
    obtain ⟨f1, f2, f3, f4⟩ := tile_desc_geo b fw fh hi' hj'
    have hne' : i ≠ i' ∨ j ≠ j' := by
      by_contra hcon
      push_neg at hcon
      exact hne (by rw [hcon.1, hcon.2])
    rcases hne' with hii | hjj
    · rcases Nat.lt_or_ge i i' with hlt | hge
      · refine Or.inr (Or.inr (Or.inl ?_))
        rw [e4, f3]
        exact frac_cut_mono _ _ _ hlat.le (by omega)
      · refine Or.inr (Or.inr (Or.inr ?_))
        rw [f4, e3]
        exact frac_cut_mono _ _ _ hlat.le (by omega)
    · rcases Nat.lt_or_ge j j' with hlt | hge
      · refine Or.inl ?_
        rw [e2, f1]
        exact frac_cut_mono _ _ _ hlon.le (by omega)
      · refine Or.inr (Or.inl ?_)
        rw [f2, e1]
        exact frac_cut_mono _ _ _ hlon.le (by omega)

theorem fw_eval_unit : full_width ⟨0, 0, 1, 1⟩ 30 = 3710 := by
  unfold full_width
  apply pyInt_eq_of <;> norm_num [meters_per_degree]

theorem fh_eval_unit : full_height ⟨0, 0, 1, 1⟩ 30 = 3710 := by
  unfold full_height
  apply pyInt_eq_of <;> norm_num [meters_per_degree]

/-- Witness for C1 at the unit square bounding box and scale 30. -/
theorem tile_plan_partition_exact_witness :
    (1 ≤ full_width ⟨0, 0, 1, 1⟩ 30 ∧ 1 ≤ full_height ⟨0, 0, 1, 1⟩ 30 ∧
      ((⟨0, 0, 1, 1⟩ : BBox).min_lon < (⟨0, 0, 1, 1⟩ : BBox).max_lon) ∧
      ((⟨0, 0, 1, 1⟩ : BBox).min_lat < (⟨0, 0, 1, 1⟩ : BBox).max_lat)) ∧
    (tile_plan ⟨0, 0, 1, 1⟩ (fwN ⟨0, 0, 1, 1⟩ 30) (fhN ⟨0, 0, 1, 1⟩ 30)).length
        = n_tiles (fwN ⟨0, 0, 1, 1⟩ 30) * n_tiles (fhN ⟨0, 0, 1, 1⟩ 30) :=
  ⟨⟨by rw [fw_eval_unit]; norm_num, by rw [fh_eval_unit]; norm_num,
      by norm_num, by norm_num⟩,
    (tile_plan_partition_exact ⟨0, 0, 1, 1⟩ 30 (by rw [fw_eval_unit]; norm_num)
      (by rw [fh_eval_unit]; norm_num) (by norm_num) (by norm_num)).1⟩

/-- C2: a region whose computed pixel count equals the direct-download
ceiling (SAMPLE_LIMIT = 250000) takes the direct single-request path, and a
region one pixel above it takes the tiled path. -/
theorem planner_ceiling_boundary (b1 b2 : BBox) (s1 s2 : ℚ)
    (h1 : full_width b1 s1 * full_height b1 s1 = SAMPLE_LIMIT)
    (h2 : full_width b2 s2 * full_height b2 s2 = SAMPLE_LIMIT + 1) :
    download_plan b1 s1 = Path.direct ∧ download_plan b2 s2 = Path.tiled := by
  unfold download_plan
  rw [h1, h2]
  norm_num [SAMPLE_LIMIT]

theorem fw_eval_b1 : full_width ⟨0, 0, 375/2783, 375/2783⟩ 30 = 500 := by
  unfold full_width
  apply pyInt_eq_of <;> norm_num [meters_per_degree]

theorem fh_eval_b1 : full_height ⟨0, 0, 375/2783, 375/2783⟩ 30 = 500 := by
  unfold full_height
  apply pyInt_eq_of <;> norm_num [meters_per_degree]

theorem fw_eval_b2 : full_width ⟨0, 0, 159/11132, 14151/11132⟩ 30 = 53 := by
  unfold full_width
  apply pyInt_eq_of <;> norm_num [meters_per_degree]

theorem fh_eval_b2 : full_height ⟨0, 0, 159/11132, 14151/11132⟩ 30 = 4717 := by
  unfold full_height
  apply pyInt_eq_of <;> norm_num [meters_per_degree]

/-- Witness for C2: a 500x500-pixel region sits exactly at the ceiling and
goes direct; a 53x4717-pixel region is one pixel above and is tiled. -/
theorem planner_ceiling_boundary_witness :
    (full_width ⟨0, 0, 375/2783, 375/2783⟩ 30 * full_height ⟨0, 0, 375/2783, 375/2783⟩ 30
        = SAMPLE_LIMIT ∧
      full_width ⟨0, 0, 159/11132, 14151/11132⟩ 30 *
          full_height ⟨0, 0, 159/11132, 14151/11132⟩ 30 = SAMPLE_LIMIT + 1) ∧
    (download_plan ⟨0, 0, 375/2783, 375/2783⟩ 30 = Path.direct ∧
      download_plan ⟨0, 0, 159/11132, 14151/11132⟩ 30 = Path.tiled) :=
  ⟨⟨by rw [fw_eval_b1, fh_eval_b1]; rfl, by rw [fw_eval_b2, fh_eval_b2]; rfl⟩,
    planner_ceiling_boundary _ _ _ _ (by rw [fw_eval_b1, fh_eval_b1]; rfl)
      (by rw [fw_eval_b2, fh_eval_b2]; rfl)⟩

/-- Counterexample for C3: a source raster with nodata defined and equal
to 0 gets output nodata 255, not the source value, because Python treats
0.0 as falsy in src.nodata or 255. -/
theorem reproject_nodata_zero_cex :
    (reproject_meta "EPSG:5070" (some 0)).nodata = 255 ∧ ((255:ℚ) ≠ 0) := by
  constructor
  · simp [reproject_meta, py_or]
  · norm_num

/-- C3 (amended): reproject_raster keeps the source nodata only when it is
defined and nonzero; it defaults to 255 both when the source has no nodata
defined and when the defined nodata equals 0. -/
theorem reproject_nodata_amended (target_crs : String) (v : ℚ) (hv : v ≠ 0) :
    (reproject_meta target_crs (some v)).nodata = v ∧
    (reproject_meta target_crs (some 0)).nodata = 255 ∧
    (reproject_meta target_crs none).nodata = 255 := by
  refine ⟨?_, ?_, ?_⟩ <;> simp [reproject_meta, py_or, hv]

/-- Witness for C3 (amended) at nodata 7. -/
theorem reproject_nodata_amended_witness :
    ((7:ℚ) ≠ 0) ∧ ((reproject_meta "EPSG:5070" (some 7)).nodata = 7 ∧
      (reproject_meta "EPSG:5070" (some 0)).nodata = 255 ∧
      (reproject_meta "EPSG:5070" none).nodata = 255) :=
  ⟨by norm_num, reproject_nodata_amended "EPSG:5070" 7 (by norm_num)⟩

theorem fw_eval_deg : full_width ⟨0, 0, 1/111320, 1⟩ 30 = 0 := by
  unfold full_width
  apply pyInt_eq_of <;> norm_num [meters_per_degree]

/-- Counterexample for C4: a bounding box whose computed pixel width is 0
does not fail with any InvalidRegion error; the pixel count 0 passes the
ceiling test and the planner proceeds on the direct fetch path. -/
theorem degenerate_region_no_error_cex :
    full_width ⟨0, 0, 1/111320, 1⟩ 30 = 0 ∧
    download_plan ⟨0, 0, 1/111320, 1⟩ 30 = Path.direct := by
  refine ⟨fw_eval_deg, ?_⟩
  unfold download_plan
  rw [fw_eval_deg]
  norm_num [SAMPLE_LIMIT]

/-- C4 (amended): when the computed pixel width or height resolves to
zero, no error is raised: the total pixel count is 0, which is under the
direct-download ceiling, so the planner chooses the direct path and
proceeds to fetch; the tiling routine entered with a zero dimension would
produce an empty plan. -/
theorem degenerate_region_direct_path (b : BBox) (scale : ℚ)
    (h : full_width b scale = 0 ∨ full_height b scale = 0) :
    download_plan b scale = Path.direct ∧
    (∀ fh : ℕ, tile_plan b 0 fh = []) ∧ (∀ fw : ℕ, tile_plan b fw 0 = []) := by
  refine ⟨?_, ?_, ?_⟩
  · unfold download_plan
    rcases h with h | h <;> rw [h] <;> norm_num [SAMPLE_LIMIT]
  · intro fh
    rw [List.eq_nil_iff_forall_not_mem]
    intro t ht
    obtain ⟨i, hi, j, hj, _⟩ := mem_tile_plan.mp ht
    simp only [n_tiles, tile_dim] at hj
    omega
  · intro fw
    rw [List.eq_nil_iff_forall_not_mem]
    intro t ht
    obtain ⟨i, hi, j, hj, _⟩ := mem_tile_plan.mp ht
    simp only [n_tiles, tile_dim] at hi
    omega

/-- Witness for C4 (amended) at a sub-pixel-wide bounding box. -/
theorem degenerate_region_direct_path_witness :
    (full_width ⟨0, 0, 1/111320, 1⟩ 30 = 0 ∨ full_height ⟨0, 0, 1/111320, 1⟩ 30 = 0) ∧
    download_plan ⟨0, 0, 1/111320, 1⟩ 30 = Path.direct :=
  ⟨Or.inl fw_eval_deg,
    (degenerate_region_direct_path ⟨0, 0, 1/111320, 1⟩ 30 (Or.inl fw_eval_deg)).1⟩

/-- C5: the finalized output raster geotransform is computed once from the
full bounding box, independent of which tiles were placed, and maps pixel
(0,0) exactly to (min_lon, max_lat); the output buffer starts
zero-initialized floating point at the full plan dimensions and the
attached nodata value is 0. -/
theorem stitch_finalize_geotransform (b : BBox) (fw fh : ℕ) (data : ℕ → ℕ → ℚ)
    (tiles : List (TileDescriptor × (ℕ → ℕ → ℚ))) :
    (stitch_finalize b fw fh (stitch_all tiles fh fw)).transform
        = from_bounds b.min_lon b.min_lat b.max_lon b.max_lat fw fh ∧
    (stitch_finalize b fw fh (stitch_all tiles fh fw)).transform.apply 0 0
        = (b.min_lon, b.max_lat) ∧
    (stitch_finalize b fw fh data).nodata = 0 ∧
    (stitch_finalize b fw fh data).height = fh ∧
    (stitch_finalize b fw fh data).width = fw ∧
    (stitch_finalize b fw fh data).dtype = "float32" ∧
    (∀ r c : ℕ, init_buffer fh fw r c = 0) := by
  refine ⟨rfl, ?_, rfl, rfl, rfl, rfl, fun _ _ => rfl⟩
  simp [stitch_finalize, from_bounds, Affine.apply]

theorem fetch_error_of_fail (ok : ℕ → ℕ → ℕ → Bool) :
    ∀ L : List TileDescriptor,
      (∃ t ∈ L, (tile_fetch (ok t.row t.col)).success = false) →
      ∃ e, fetch_all_tiles ok L = .error e ∧
        ∃ u ∈ L, (u.row, u.col) = e ∧ (tile_fetch (ok u.row u.col)).success = false
  | [], h => absurd h (by simp)
  | t :: rest, h => by
    by_cases hs : (tile_fetch (ok t.row t.col)).success = true
    · have hrest : ∃ u ∈ rest, (tile_fetch (ok u.row u.col)).success = false := by
        obtain ⟨u, hu, hufail⟩ := h
        rcases List.mem_cons.mp hu with rfl | hmem
        · rw [hufail] at hs
          exact absurd hs (by simp)
        · exact ⟨u, hmem, hufail⟩
      obtain ⟨e, he, u, hu, hue, huf⟩ := fetch_error_of_fail ok rest hrest
      refine ⟨e, ?_, u, List.mem_cons_of_mem _ hu, hue, huf⟩
      rw [fetch_all_tiles, if_pos hs]
      exact he
    · refine ⟨(t.row, t.col), ?_, t, List.mem_cons_self t rest, rfl, by simpa using hs⟩
      rw [fetch_all_tiles, if_neg hs]

/-- C6: each tile fetch is attempted at most 3 times with a fixed 2-second
delay between attempts (sleeps = attempts - 1); when a tile of the plan
fails all 3 attempts the whole acquisition returns no raster and the
propagated error carries a failing tile's row/column index. -/
theorem tile_retry_policy (ok : ℕ → ℕ → ℕ → Bool) (b : BBox) (scale : ℚ)
    (data : ℕ → ℕ → ℚ) (t : TileDescriptor)
    (hmem : t ∈ tile_plan b (fwN b scale) (fhN b scale))
    (hfail : (tile_fetch (ok t.row t.col)).success = false) :
    tiled_download ok b scale data = none ∧
    (∃ e, fetch_all_tiles ok (tile_plan b (fwN b scale) (fhN b scale)) = .error e ∧
      ∃ u ∈ tile_plan b (fwN b scale) (fhN b scale),
        (u.row, u.col) = e ∧ (tile_fetch (ok u.row u.col)).success = false) ∧
    (∀ f : ℕ → Bool, (tile_fetch f).attempts ≤ 3 ∧
      (tile_fetch f).sleeps = (tile_fetch f).attempts - 1 ∧
      ((tile_fetch f).success = false → (tile_fetch f).attempts = 3) ∧
      (tile_fetch f).success = (f 0 || f 1 || f 2)) ∧
    retry_delay_seconds = 2 := by
  obtain ⟨e, he, hu⟩ := fetch_error_of_fail ok _ ⟨t, hmem, hfail⟩
  refine ⟨?_, ⟨e, he, hu⟩, ?_, rfl⟩
  · unfold tiled_download
    rw [he]
  · intro f
    cases hf0 : f 0 <;> cases hf1 : f 1 <;> cases hf2 : f 2 <;>
      simp [tile_fetch, run_attempts, hf0, hf1, hf2]

theorem fw_eval_b6 : full_width ⟨0, 0, 675/2783, 675/5566⟩ 30 = 900 := by
  unfold full_width
  apply pyInt_eq_of <;> norm_num [meters_per_degree]

theorem fh_eval_b6 : full_height ⟨0, 0, 675/2783, 675/5566⟩ 30 = 450 := by
  unfold full_height
  apply pyInt_eq_of <;> norm_num [meters_per_degree]

theorem fwN_eval_b6 : fwN ⟨0, 0, 675/2783, 675/5566⟩ 30 = 900 := by
  rw [fwN, fw_eval_b6]
  rfl

theorem fhN_eval_b6 : fhN ⟨0, 0, 675/2783, 675/5566⟩ 30 = 450 := by
  rw [fhN, fh_eval_b6]
  rfl

/-- Witness for C6: a 2x1-tile plan in which tile (0,1) fails every
attempt; the tiled download yields no raster. -/
theorem tile_retry_policy_witness :
    (tile_desc ⟨0, 0, 675/2783, 675/5566⟩ 900 450 0 1 ∈
      tile_plan ⟨0, 0, 675/2783, 675/5566⟩ (fwN ⟨0, 0, 675/2783, 675/5566⟩ 30)
        (fhN ⟨0, 0, 675/2783, 675/5566⟩ 30)) ∧
    ((tile_fetch ((fun _ j _ => decide (j = 0)) 0 1)).success = false) ∧
    tiled_download (fun _ j _ => decide (j = 0)) ⟨0, 0, 675/2783, 675/5566⟩ 30
      (fun _ _ => 0) = none :=
  ⟨by rw [fwN_eval_b6, fhN_eval_b6]
      exact mem_tile_plan.mpr ⟨0, by norm_num [n_tiles, tile_dim], 1,
        by norm_num [n_tiles, tile_dim], rfl⟩,
    rfl,
    (tile_retry_policy (fun _ j _ => decide (j = 0)) ⟨0, 0, 675/2783, 675/5566⟩ 30
      (fun _ _ => 0) (tile_desc ⟨0, 0, 675/2783, 675/5566⟩ 900 450 0 1)
      (by rw [fwN_eval_b6, fhN_eval_b6]
          exact mem_tile_plan.mpr ⟨0, by norm_num [n_tiles, tile_dim], 1,
            by norm_num [n_tiles, tile_dim], rfl⟩)
      rfl).1⟩

/-- Counterexample for C7: a raster whose nodata sentinel is 0 and whose
data contains a 0 pixel still reports has_nodata = false, because Python
treats the 0.0 sentinel as falsy in the guard. -/
theorem has_nodata_zero_sentinel_cex :
    (validate_raster (.ok ⟨"EPSG:5070", (1, 2), some 0, "float32", 1, [0, 1]⟩)
        (some "EPSG:5070")).has_nodata = some false ∧
    (0:ℚ) ∈ ([0, 1] : List ℚ) ∧
    ((⟨"EPSG:5070", (1, 2), some 0, "float32", 1, [0, 1]⟩ : SrcRaster).nodata = some 0) := by
  refine ⟨?_, ?_, rfl⟩
  · simp [validate_raster, has_nodata_flag]
  · simp

/-- C7 (amended): validate_raster's has_nodata is true exactly when the
nodata sentinel is defined, nonzero, and some pixel equals it; a sentinel
of 0 (or an undefined sentinel) always yields false. -/
theorem has_nodata_amended (src : SrcRaster) (ec : Option String) :
    (validate_raster (.ok src) ec).has_nodata = some true ↔
      ∃ v, src.nodata = some v ∧ v ≠ 0 ∧ v ∈ src.data := by
  simp only [validate_raster, Option.some.injEq]
  cases hnd : src.nodata with
  | none => simp [has_nodata_flag]
  | some v =>
    by_cases hv : v = 0
    · subst hv
      simp [has_nodata_flag]
    · simp only [has_nodata_flag, if_neg hv, List.any_eq_true, decide_eq_true_eq]
      constructor
      · rintro ⟨x, hx, rfl⟩
        exact ⟨x, rfl, hv, hx⟩
      · rintro ⟨w, hw, hw0, hwmem⟩
        obtain rfl : v = w := Option.some.inj hw
        exact ⟨v, hwmem, rfl⟩

/-- C8: one dataset's failure never stops the others: a pair (d, p)
appears in the outputs exactly when dataset d was requested, recognized,
and its own pipeline succeeded with path p, regardless of every other
dataset's outcome; the manifest status is "failed" exactly when zero
requested datasets succeeded, and is "completed" otherwise. -/
theorem process_city_data_containment (result : String → Option String)
    (data_types : List String) :
    (∀ d p, (d, p) ∈ (process_city_data result data_types).outputs ↔
      d ∈ data_types ∧ d ∈ recognized_datasets ∧ result d = some p) ∧
    ((process_city_data result data_types).status = "failed" ↔
      ∀ d ∈ data_types, d ∈ recognized_datasets → result d = none) ∧
    ((process_city_data result data_types).status = "failed" ∨
      (process_city_data result data_types).status = "completed") := by
  refine ⟨?_, ?_, ?_⟩
  · intro d p
    simp only [process_city_data, process_outputs, List.mem_filterMap]
    constructor
    · rintro ⟨a, ha, hfa⟩
      by_cases hr : a ∈ recognized_datasets
      · rw [if_pos hr] at hfa
        rcases Option.map_eq_some'.mp hfa with ⟨q, hq, heq⟩
        cases heq
        exact ⟨ha, hr, hq⟩
      · rw [if_neg hr] at hfa
        cases hfa
    · rintro ⟨hd, hr, hp⟩
      refine ⟨d, hd, ?_⟩
      rw [if_pos hr, hp]
      rfl
  · constructor
    · intro hst d hd hr
      by_cases he : (process_outputs result data_types).isEmpty
      · have hnil : process_outputs result data_types = [] := by
          simpa [List.isEmpty_iff] using he
        have hd' := List.filterMap_eq_nil_iff.mp hnil d hd
        rw [if_pos hr] at hd'
        exact Option.map_eq_none'.mp hd'
      · exfalso
        simp only [process_city_data, if_neg he] at hst
        exact absurd hst (by decide)
    · intro hall
      have hnil : process_outputs result data_types = [] := by
        rw [process_outputs, List.filterMap_eq_nil_iff]
        intro a ha
        by_cases hr : a ∈ recognized_datasets
        · rw [if_pos hr, hall a ha hr]
          rfl
        · rw [if_neg hr]
      simp [process_city_data, hnil]
  · by_cases he : (process_outputs result data_types).isEmpty
    · exact Or.inl (by simp [process_city_data, he])
    · exact Or.inr (by simp [process_city_data, he])

/-- C9: when opening the raster fails, validate_raster returns a record
with file_exists = false and a non-empty error string (the exception
message); being a total function, it never raises. -/
theorem validate_raster_soft_failure (e : String) (ec : Option String) (he : e ≠ "") :
    (validate_raster (.error e) ec).file_exists = false ∧
    ∃ msg, (validate_raster (.error e) ec).error = some msg ∧ msg ≠ "" :=
  ⟨rfl, e, rfl, he⟩

/-- Witness for C9 at a missing-file error message. -/
theorem validate_raster_soft_failure_witness :
    ("No such file or directory" ≠ "") ∧
    ((validate_raster (.error "No such file or directory") (some "EPSG:5070")).file_exists
        = false ∧
      ∃ msg, (validate_raster (.error "No such file or directory")
          (some "EPSG:5070")).error = some msg ∧ msg ≠ "") :=
  ⟨by decide, validate_raster_soft_failure "No such file or directory"
    (some "EPSG:5070") (by decide)⟩

theorem json_safe_of_basic : ∀ v : PyVal, basic_val v = true → json_safe v = true
  | .vnone, _ => rfl
  | .vbool _, _ => rfl
  | .vint _, _ => rfl
  | .vfloat _, _ => rfl
  | .vstr _, _ => rfl
  | .vlist _, h => by simp [basic_val] at h
  | .vdict _, h => by simp [basic_val] at h
  | .vnp _, h => by simp [basic_val] at h
  | .vother _, h => by simp [basic_val] at h

mutual

theorem mjs_fix_of_safe : ∀ v : PyVal, json_safe v = true → make_json_safe v = v
  | .vnone, _ => rfl
  | .vbool _, _ => rfl
  | .vint _, _ => rfl
  | .vfloat _, _ => rfl
  | .vstr _, _ => rfl
  | .vlist xs, h => by
    simp only [make_json_safe]
    rw [mjs_list_fix xs (by simpa [json_safe] using h)]
  | .vdict kvs, h => by
    simp only [make_json_safe]
    rw [mjs_entries_fix kvs (by simpa [json_safe] using h)]
  | .vnp item, h => by simp [json_safe] at h
  | .vother r, h => by simp [json_safe] at h

theorem mjs_list_fix : ∀ xs : List PyVal, json_safe_list xs = true → mjs_list xs = xs
  | [], _ => rfl
  | x :: xs, h => by
    rw [json_safe_list, Bool.and_eq_true] at h
    simp only [mjs_list]
    rw [mjs_fix_of_safe x h.1, mjs_list_fix xs h.2]

theorem mjs_entries_fix : ∀ kvs : List (PyVal × PyVal),
    json_safe_entries kvs = true → mjs_entries kvs = kvs
  | [], _ => rfl
  | (k, v) :: rest, h => by
    rw [json_safe_entries, Bool.and_eq_true, Bool.and_eq_true] at h
    simp only [mjs_entries]
    rw [mjs_fix_of_safe v h.1.2, mjs_entries_fix rest h.2]

end

mutual

theorem mjs_safe_of_good : ∀ v : PyVal, good_input v = true →
    json_safe (make_json_safe v) = true
  | .vnone, _ => rfl
  | .vbool _, _ => rfl
  | .vint _, _ => rfl
  | .vfloat _, _ => rfl
  | .vstr _, _ => rfl
  | .vnp item, h => by
    have hb : basic_val item = true := by simpa [good_input] using h
    simpa [make_json_safe] using json_safe_of_basic item hb
  | .vother r, _ => by simp [make_json_safe, json_safe]
  | .vlist xs, h => by
    simp only [make_json_safe, json_safe]
    exact mjs_list_safe xs (by simpa [good_input] using h)
  | .vdict kvs, h => by
    simp only [make_json_safe, json_safe]
    exact mjs_entries_safe kvs (by simpa [good_input] using h)

theorem mjs_list_safe : ∀ xs : List PyVal, good_list xs = true →
    json_safe_list (mjs_list xs) = true
  | [], _ => rfl
  | x :: xs, h => by
    rw [good_list, Bool.and_eq_true] at h
    simp only [mjs_list, json_safe_list, Bool.and_eq_true]
    exact ⟨mjs_safe_of_good x h.1, mjs_list_safe xs h.2⟩

theorem mjs_entries_safe : ∀ kvs : List (PyVal × PyVal), good_entries kvs = true →
    json_safe_entries (mjs_entries kvs) = true
  | [], _ => rfl
  | (k, v) :: rest, h => by
    rw [good_entries, Bool.and_eq_true, Bool.and_eq_true] at h
    simp only [mjs_entries, json_safe_entries, Bool.and_eq_true]
    exact ⟨⟨json_safe_of_basic k h.1.1, mjs_safe_of_good v h.1.2⟩,
      mjs_entries_safe rest h.2⟩

end

/-- Counterexample for C10: a numpy scalar whose .item() is not a JSON
basic value (e.g. numpy complex, whose item is a Python complex) is
unwrapped by the first pass and stringified by the second, so
make_json_safe is not idempotent on it. -/
theorem make_json_safe_not_idempotent_cex :
    make_json_safe (make_json_safe (.vnp (.vother "(1+0j)")))
      ≠ make_json_safe (.vnp (.vother "(1+0j)")) := by
  simp [make_json_safe]

/-- C10 (amended): on inputs whose numpy scalars unwrap to JSON-basic
values and whose dict keys are basic (as in the manifests the agent
serializes), make_json_safe produces a value built only from dicts, lists,
bools, ints, floats, strings and None, and is idempotent there. -/
theorem make_json_safe_amended (v : PyVal) (h : good_input v = true) :
    json_safe (make_json_safe v) = true ∧
    make_json_safe (make_json_safe v) = make_json_safe v :=
  ⟨mjs_safe_of_good v h, mjs_fix_of_safe _ (mjs_safe_of_good v h)⟩

/-- Witness for C10 (amended) on a small manifest-like dict. -/
theorem make_json_safe_amended_witness :
    good_input (.vdict [(.vstr "min_value", .vnp (.vint 21))]) = true ∧
    (json_safe (make_json_safe (.vdict [(.vstr "min_value", .vnp (.vint 21))])) = true ∧
      make_json_safe (make_json_safe (.vdict [(.vstr "min_value", .vnp (.vint 21))]))
        = make_json_safe (.vdict [(.vstr "min_value", .vnp (.vint 21))])) :=
  ⟨rfl, make_json_safe_amended _ rfl⟩

end InvestAgent
